import Mathlib

/-!
Verification of the Tyk gateway control-plane layer: the analytics purge
pipeline (`rpc/rpc_analytics_purger.go`) and the distributed-rate-limiter and
configuration-sync handlers (`gateway/distributed_rate_limiter.go`), shallowly
embedded in Lean.  External collaborators (msgpack decoding, the RPC client,
the storage handler, the filesystem, `json.Marshal`) are modelled as explicit
parameters or explicit state; statements of the source that only log are not
modelled.
-/

namespace Tyk

/-! ## Analytics purge pipeline (`rpc/rpc_analytics_purger.go`) -/

/-- Go `analytics.AnalyticsRecord`, opaque to this subsystem: we keep only the
encoded payload it was decoded from.  `decodeAnalyticsRecord` (external
msgpack decoding) is a parameter `decode` below. -/
structure AnalyticsRecord where
  payload : String
deriving DecidableEq, Repr

/-- Constant `ANALYTICS_KEYNAME = "tyk-system-analytics"`. -/
def ANALYTICS_KEYNAME : String := "tyk-system-analytics"

/-- Per-bucket key name computed inside `PurgeCache`: bucket `-1` keeps the
legacy shared key, bucket `i ≥ 0` uses `fmt.Sprintf("%v_%v", keyname, i)`. -/
def analyticsKeyName (i : Int) : String :=
  if i = -1 then ANALYTICS_KEYNAME
  else ANALYTICS_KEYNAME ++ "_" ++ toString i

/-- Translation of `processAnalyticsValues`: Go preallocates `keys` with
`make([]interface{}, len(analyticsValues))` and writes slot `i` only when
element `i` decodes; the slot of a failed element stays `nil` (`none` here),
and `failedRecords` counts the failures. -/
def processAnalyticsValues (decode : String → Except String AnalyticsRecord) :
    List String → List (Option AnalyticsRecord) × Nat
  | [] => ([], 0)
  | v :: rest =>
    let acc := processAnalyticsValues decode rest
    match decode v with
    | .error _ => (none :: acc.1, acc.2 + 1)
    | .ok decoded => (some decoded :: acc.1, acc.2)

/-- Local queue store (the `storage.Handler` held by the purger): key to
queued encoded elements. -/
abbrev Store := List (String × List String)

/-- Lookup of a key's queued elements (missing key means empty). -/
def storeGet : Store → String → List String
  | [], _ => []
  | p :: rest, k => if p.1 = k then p.2 else storeGet rest k

/-- Removal of a key, the destructive half of `GetAndDeleteSet`. -/
def storeDel : Store → String → Store
  | [], _ => []
  | p :: rest, k => if p.1 = k then storeDel rest k else p :: storeDel rest k

/-- Observable actions of one purge cycle, in order. -/
inductive PurgeEvent where
  /-- a `Store.GetAndDeleteSet` call on bucket `i`'s key -/
  | read (i : Int)
  /-- the `PurgeAnalyticsData` remote call for bucket `i`, with the marshalled
  array and whether the remote call succeeded -/
  | sent (i : Int) (keys : List (Option AnalyticsRecord)) (ok : Bool)
  /-- a `json.Marshal` failure for bucket `i` (the whole cycle returns) -/
  | mfail (i : Int)
deriving DecidableEq, Repr

/-- Bucket index an event concerns. -/
def PurgeEvent.index : PurgeEvent → Int
  | .read i => i
  | .sent i _ _ => i
  | .mfail i => i

/-- External collaborators driven by `PurgeCache` during one cycle. -/
structure PurgeEnv where
  /-- whether the preflight `Ping` remote call succeeds -/
  pingOk : Bool
  /-- `decodeAnalyticsRecord` (external msgpack decoding) -/
  decode : String → Except String AnalyticsRecord
  /-- whether `json.Marshal` of a keys array succeeds -/
  marshalOk : List (Option AnalyticsRecord) → Bool
  /-- whether the `PurgeAnalyticsData` remote call succeeds -/
  rpcOk : List (Option AnalyticsRecord) → Bool

/-- Body of `PurgeCache`'s `for i := -1; i < 10; i++` loop over the remaining
bucket indices `l`: per bucket, `GetAndDeleteSet` (modelled as `storeGet` plus
`storeDel`), `continue` on an empty result, decode via
`processAnalyticsValues`, `return` from the whole function on a marshal
failure, and continue after a failed remote call (which only logs). -/
def purgeBuckets (env : PurgeEnv) : List Int → Store → Store × List PurgeEvent
  | [], s => (s, [])
  | i :: rest, s =>
    let vals := storeGet s (analyticsKeyName i)
    let s1 := storeDel s (analyticsKeyName i)
    if vals = [] then
      ((purgeBuckets env rest s1).1, .read i :: (purgeBuckets env rest s1).2)
    else if env.marshalOk (processAnalyticsValues env.decode vals).1 then
      ((purgeBuckets env rest s1).1,
        .read i ::
          .sent i (processAnalyticsValues env.decode vals).1
            (env.rpcOk (processAnalyticsValues env.decode vals).1) ::
          (purgeBuckets env rest s1).2)
    else
      (s1, [.read i, .mfail i])

/-- Bucket indices `-1, 0, …, 9` iterated by `PurgeCache`. -/
def bucketIndices : List Int := [-1, 0, 1, 2, 3, 4, 5, 6, 7, 8, 9]

/-- Translation of `PurgeCache`: a failed preflight ping returns at once,
otherwise all buckets are drained in order. -/
def PurgeCache (env : PurgeEnv) (s : Store) : Store × List PurgeEvent :=
  if env.pingOk then purgeBuckets env bucketIndices s
  else (s, [])

/-! Concrete demonstration inputs: a decoder that rejects exactly the payload
`"bad"`, and bucket `-1` holding three valid records and one malformed one. -/

/-- Demonstration decoder: fails exactly on the payload `"bad"`. -/
def demoDecode (v : String) : Except String AnalyticsRecord :=
  if v = "bad" then .error "msgpack unmarshal error" else .ok ⟨v⟩

/-- Demonstration bucket contents: three valid records, one malformed. -/
def demoBucket : List String := ["r1", "r2", "bad", "r3"]

/-- Demonstration store: only the legacy bucket `-1` is populated. -/
def demoStore : Store := [(ANALYTICS_KEYNAME, demoBucket)]

/-- Demonstration environment: ping, marshal and remote call all succeed. -/
def demoEnv : PurgeEnv :=
  { pingOk := true
    decode := demoDecode
    marshalOk := fun _ => true
    rpcOk := fun _ => true }

/-- Demonstration environment whose preflight ping fails. -/
def demoEnvNoPing : PurgeEnv :=
  { demoEnv with pingOk := false }

/-- Demonstration environment whose `json.Marshal` always fails. -/
def demoEnvNoMarshal : PurgeEnv :=
  { demoEnv with marshalOk := fun _ => false }

/-- Characterization of `processAnalyticsValues`: slot `i` of `keys` is the
decode result of element `i` (kept as `none` on failure), and
`failedRecords` counts the failing elements. -/
theorem processAnalyticsValues_eq (decode : String → Except String AnalyticsRecord)
    (vals : List String) :
    processAnalyticsValues decode vals =
      (vals.map (fun v => (decode v).toOption),
        vals.countP (fun v => (decode v).toOption.isNone)) := by
  induction vals with
  | nil => simp [processAnalyticsValues]
  | cons v rest ih =>
    simp only [processAnalyticsValues, ih]
    cases h : decode v <;>
      simp [h, Except.toOption, List.countP_cons, Nat.add_comm]

/-- C1 counterexample: when bucket `-1` holds three valid records and one
malformed entry, one cycle decodes exactly 3 records and counts 1 failed
record, but the array forwarded by the `PurgeAnalyticsData` remote call has
length 4 (the malformed entry keeps its `nil` slot), not 3 as claimed. -/
theorem purge_forwarded_length_counterexample :
    (processAnalyticsValues demoDecode demoBucket).2 = 1 ∧
    (processAnalyticsValues demoDecode demoBucket).1.countP (fun o => o.isSome) = 3 ∧
    PurgeEvent.sent (-1) (processAnalyticsValues demoDecode demoBucket).1 true ∈
      (PurgeCache demoEnv demoStore).2 ∧
    (processAnalyticsValues demoDecode demoBucket).1.length ≠ 3 := by
  decide

/-- C1 (amended): when a bucket's fetched elements are 4 entries of which
exactly 3 decode, `processAnalyticsValues` decodes exactly 3 records, counts
exactly 1 failed record, and the marshalled array has length 4: the decoded
records at their original positions plus one `nil` placeholder. -/
theorem purge_decode_failure_tolerance (decode : String → Except String AnalyticsRecord)
    (vals : List String) (hlen : vals.length = 4)
    (hok : vals.countP (fun v => (decode v).toOption.isSome) = 3) :
    (processAnalyticsValues decode vals).2 = 1 ∧
    (processAnalyticsValues decode vals).1.countP (fun o => o.isSome) = 3 ∧
    (processAnalyticsValues decode vals).1.length = 4 := by
  have hchar := processAnalyticsValues_eq decode vals
  rw [hchar]
  have hsplit : ∀ l : List String,
      l.countP (fun v => (decode v).toOption.isSome) +
        l.countP (fun v => (decode v).toOption.isNone) = l.length := by
    intro l
    induction l with
    | nil => simp
    | cons v rest ih =>
      simp only [List.countP_cons]
      cases hvo : (decode v).toOption <;> simp [hvo] <;> omega
  have hspl := hsplit vals
  refine ⟨by omega, ?_, by simp [hlen]⟩
  rw [List.countP_map]
  have : ((fun o => Option.isSome o) ∘ fun v => (decode v).toOption) =
      fun v => (decode v).toOption.isSome := rfl
  rw [this, hok]

/-- Witness for `purge_decode_failure_tolerance` at the demonstration
bucket. -/
theorem purge_decode_failure_tolerance_witness :
    (processAnalyticsValues demoDecode demoBucket).2 = 1 ∧
    (processAnalyticsValues demoDecode demoBucket).1.countP (fun o => o.isSome) = 3 ∧
    (processAnalyticsValues demoDecode demoBucket).1.length = 4 :=
  purge_decode_failure_tolerance demoDecode demoBucket (by decide) (by decide)

/-- C4: if the preflight `Ping` remote call errors, `PurgeCache` returns
immediately: the store is untouched and no bucket is read
(`GetAndDeleteSet` is never called, so no `read` event exists). -/
theorem ping_failure_aborts (env : PurgeEnv) (s : Store) (h : env.pingOk = false) :
    (PurgeCache env s).1 = s ∧ (PurgeCache env s).2 = [] ∧
      ∀ i, PurgeEvent.read i ∉ (PurgeCache env s).2 := by
  simp [PurgeCache, h]

/-- Witness for `ping_failure_aborts` at the demonstration input. -/
theorem ping_failure_aborts_witness :
    (PurgeCache demoEnvNoPing demoStore).1 = demoStore ∧
      (PurgeCache demoEnvNoPing demoStore).2 = [] ∧
      ∀ i, PurgeEvent.read i ∉ (PurgeCache demoEnvNoPing demoStore).2 :=
  ping_failure_aborts demoEnvNoPing demoStore rfl

/-- Deleting one key leaves every other key's queue unchanged. -/
theorem storeGet_storeDel_ne (s : Store) (k dk : String) (h : dk ≠ k) :
    storeGet (storeDel s dk) k = storeGet s k := by
  induction s with
  | nil => rfl
  | cons p rest ih =>
    by_cases hp : p.1 = dk
    · have hpk : p.1 ≠ k := by rw [hp]; exact h
      simp [storeDel, storeGet, hp, hpk, h, ih]
    · by_cases hk : p.1 = k <;>
        simp [storeDel, storeGet, hp, hk, h, Ne.symm h, ih]

/-- Every event produced by the bucket loop concerns an index of the iterated
list. -/
theorem purgeBuckets_index_mem (env : PurgeEnv) :
    ∀ (l : List Int) (s : Store) (e : PurgeEvent),
      e ∈ (purgeBuckets env l s).2 → e.index ∈ l := by
  intro l
  induction l with
  | nil => intro s e he; simp [purgeBuckets] at he
  | cons i rest ih =>
    intro s e he
    simp only [purgeBuckets] at he
    by_cases hv : storeGet s (analyticsKeyName i) = []
    · rw [if_pos hv] at he
      rcases List.mem_cons.mp he with h1 | h2
      · subst h1; simp [PurgeEvent.index]
      · exact List.mem_cons_of_mem _ (ih _ _ h2)
    · rw [if_neg hv] at he
      by_cases hm :
          env.marshalOk
            (processAnalyticsValues env.decode (storeGet s (analyticsKeyName i))).1
      · rw [if_pos hm] at he
        rcases List.mem_cons.mp he with h1 | h2
        · subst h1; simp [PurgeEvent.index]
        · rcases List.mem_cons.mp h2 with h3 | h4
          · subst h3; simp [PurgeEvent.index]
          · exact List.mem_cons_of_mem _ (ih _ _ h4)
      · rw [if_neg hm] at he
        rcases List.mem_cons.mp he with h1 | h2
        · subst h1; simp [PurgeEvent.index]
        · simp only [List.mem_singleton] at h2
          subst h2; simp [PurgeEvent.index]

/-- Processing a nonempty index list always begins by reading its head. -/
theorem purgeBuckets_read_head (env : PurgeEnv) (i : Int) (rest : List Int)
    (s : Store) :
    PurgeEvent.read i ∈ (purgeBuckets env (i :: rest) s).2 := by
  simp only [purgeBuckets]
  by_cases hv : storeGet s (analyticsKeyName i) = []
  · rw [if_pos hv]; exact List.mem_cons_self _ _
  · rw [if_neg hv]
    by_cases hm :
        env.marshalOk
          (processAnalyticsValues env.decode (storeGet s (analyticsKeyName i))).1
    · rw [if_pos hm]; exact List.mem_cons_self _ _
    · rw [if_neg hm]; simp

/-- A marshal failure truncates the bucket iteration: for a strictly
ascending index list with injective key names, once `mfail i` occurred, no
later index `j` is read and its queue is untouched. -/
theorem purgeBuckets_mfail_truncates (env : PurgeEnv) :
    ∀ (l : List Int) (s : Store) (i j : Int),
      List.Pairwise (· < ·) l →
      (∀ m ∈ l, analyticsKeyName m = analyticsKeyName j → m = j) →
      PurgeEvent.mfail i ∈ (purgeBuckets env l s).2 → j ∈ l → i < j →
      PurgeEvent.read j ∉ (purgeBuckets env l s).2 ∧
      storeGet (purgeBuckets env l s).1 (analyticsKeyName j) =
        storeGet s (analyticsKeyName j) := by
  intro l
  induction l with
  | nil => intro s i j _ _ hmf; simp [purgeBuckets] at hmf
  | cons a rest ih =>
    intro s i j hpw hkeys hmf hj hij
    have hpw' := (List.pairwise_cons.mp hpw).2
    have hlt := (List.pairwise_cons.mp hpw).1
    have hkeyA : analyticsKeyName a = analyticsKeyName j → a = j :=
      hkeys a (List.mem_cons_self a rest)
    have hkeys' : ∀ m ∈ rest, analyticsKeyName m = analyticsKeyName j → m = j :=
      fun m hm => hkeys m (List.mem_cons_of_mem a hm)
    simp only [purgeBuckets] at hmf ⊢
    by_cases hv : storeGet s (analyticsKeyName a) = []
    · rw [if_pos hv] at hmf ⊢
      have hmf' : PurgeEvent.mfail i ∈
          (purgeBuckets env rest (storeDel s (analyticsKeyName a))).2 := by
        rcases List.mem_cons.mp hmf with h1 | h2
        · exact absurd h1 (by simp)
        · exact h2
      have hia : a < i := hlt i (purgeBuckets_index_mem env rest _ _ hmf')
      have hja : j ≠ a := fun hja => by omega
      have hj' : j ∈ rest := by
        rcases List.mem_cons.mp hj with h1 | h2
        · exact absurd h1 hja
        · exact h2
      obtain ⟨hnr, hsg⟩ := ih _ i j hpw' hkeys' hmf' hj' hij
      refine ⟨?_, ?_⟩
      · intro hmem
        rcases List.mem_cons.mp hmem with h1 | h2
        · exact hja (by injection h1)
        · exact hnr h2
      · rw [hsg]
        exact storeGet_storeDel_ne s _ _ (fun hk => hja (hkeyA hk).symm)
    · rw [if_neg hv] at hmf ⊢
      by_cases hm :
          env.marshalOk
            (processAnalyticsValues env.decode (storeGet s (analyticsKeyName a))).1
      · rw [if_pos hm] at hmf ⊢
        have hmf' : PurgeEvent.mfail i ∈
            (purgeBuckets env rest (storeDel s (analyticsKeyName a))).2 := by
          rcases List.mem_cons.mp hmf with h1 | h2
          · exact absurd h1 (by simp)
          · rcases List.mem_cons.mp h2 with h3 | h4
            · exact absurd h3 (by simp)
            · exact h4
        have hia : a < i := hlt i (purgeBuckets_index_mem env rest _ _ hmf')
        have hja : j ≠ a := fun hja => by omega
        have hj' : j ∈ rest := by
          rcases List.mem_cons.mp hj with h1 | h2
          · exact absurd h1 hja
          · exact h2
        obtain ⟨hnr, hsg⟩ := ih _ i j hpw' hkeys' hmf' hj' hij
        refine ⟨?_, ?_⟩
        · intro hmem
          rcases List.mem_cons.mp hmem with h1 | h2
          · exact hja (by injection h1)
          · rcases List.mem_cons.mp h2 with h3 | h4
            · exact absurd h3 (by simp)
            · exact hnr h4
        · rw [hsg]
          exact storeGet_storeDel_ne s _ _ (fun hk => hja (hkeyA hk).symm)
      · rw [if_neg hm] at hmf ⊢
        have hia : i = a := by
          rcases List.mem_cons.mp hmf with h1 | h2
          · injection h1
          · simp only [List.mem_singleton] at h2
            injection h2
        have hja : j ≠ a := fun hja => by omega
        refine ⟨?_, storeGet_storeDel_ne s _ _ (fun hk => hja (hkeyA hk).symm)⟩
        intro hmem
        rcases List.mem_cons.mp hmem with h1 | h2
        · exact hja (by injection h1)
        · simp only [List.mem_singleton] at h2
          exact PurgeEvent.noConfusion h2

/-- A failed remote call does not truncate the iteration: if the `sent`
event for index `i` occurred and `j` immediately follows `i` in the iterated
(strictly ascending) list, then `j` was still read. -/
theorem purgeBuckets_sent_continues (env : PurgeEnv) :
    ∀ (l1 : List Int) (i j : Int) (l2 : List Int) (s : Store)
      (ks : List (Option AnalyticsRecord)) (ok : Bool),
      List.Pairwise (· < ·) (l1 ++ i :: j :: l2) →
      PurgeEvent.sent i ks ok ∈ (purgeBuckets env (l1 ++ i :: j :: l2) s).2 →
      PurgeEvent.read j ∈ (purgeBuckets env (l1 ++ i :: j :: l2) s).2 := by
  intro l1
  induction l1 with
  | nil =>
    intro i j l2 s ks ok hpw hs
    simp only [List.nil_append] at hpw hs ⊢
    have hlt := (List.pairwise_cons.mp hpw).1
    simp only [purgeBuckets] at hs ⊢
    by_cases hv : storeGet s (analyticsKeyName i) = []
    · rw [if_pos hv] at hs
      have hs' : PurgeEvent.sent i ks ok ∈
          (purgeBuckets env (j :: l2) (storeDel s (analyticsKeyName i))).2 := by
        rcases List.mem_cons.mp hs with h1 | h2
        · exact absurd h1 (by simp)
        · exact h2
      have := hlt i (purgeBuckets_index_mem env (j :: l2) _ _ hs')
      omega
    · rw [if_neg hv] at hs ⊢
      by_cases hm :
          env.marshalOk
            (processAnalyticsValues env.decode (storeGet s (analyticsKeyName i))).1
      · rw [if_pos hm] at hs ⊢
        exact List.mem_cons_of_mem _
          (List.mem_cons_of_mem _ (purgeBuckets_read_head env j l2 _))
      · rw [if_neg hm] at hs
        rcases List.mem_cons.mp hs with h1 | h2
        · exact absurd h1 (by simp)
        · simp only [List.mem_singleton] at h2
          exact absurd h2 (by simp)
  | cons a l1' ih =>
    intro i j l2 s ks ok hpw hs
    rw [List.cons_append] at hpw hs ⊢
    have hlt := (List.pairwise_cons.mp hpw).1
    have hpw' := (List.pairwise_cons.mp hpw).2
    have hia : a < i := hlt i (by simp)
    simp only [purgeBuckets] at hs ⊢
    by_cases hv : storeGet s (analyticsKeyName a) = []
    · rw [if_pos hv] at hs ⊢
      have hs' : PurgeEvent.sent i ks ok ∈
          (purgeBuckets env (l1' ++ i :: j :: l2)
            (storeDel s (analyticsKeyName a))).2 := by
        rcases List.mem_cons.mp hs with h1 | h2
        · exact absurd h1 (by simp)
        · exact h2
      exact List.mem_cons_of_mem _ (ih i j l2 _ ks ok hpw' hs')
    · rw [if_neg hv] at hs ⊢
      by_cases hm :
          env.marshalOk
            (processAnalyticsValues env.decode (storeGet s (analyticsKeyName a))).1
      · rw [if_pos hm] at hs ⊢
        have hs' : PurgeEvent.sent i ks ok ∈
            (purgeBuckets env (l1' ++ i :: j :: l2)
              (storeDel s (analyticsKeyName a))).2 := by
          rcases List.mem_cons.mp hs with h1 | h2
          · exact absurd h1 (by simp)
          · rcases List.mem_cons.mp h2 with h3 | h4
            · exfalso
              have : i = a := by injection h3
              omega
            · exact h4
        exact List.mem_cons_of_mem _
          (List.mem_cons_of_mem _ (ih i j l2 _ ks ok hpw' hs'))
      · rw [if_neg hm] at hs
        rcases List.mem_cons.mp hs with h1 | h2
        · exact absurd h1 (by simp)
        · simp only [List.mem_singleton] at h2
          exact absurd h2 (by simp)

/-- Key names of distinct bucket indices are distinct strings. -/
theorem bucketKeys_inj : ∀ m ∈ bucketIndices, ∀ j ∈ bucketIndices,
    analyticsKeyName m = analyticsKeyName j → m = j := by decide

/-- C10: if `json.Marshal` fails for some bucket, `PurgeCache` returns
immediately, so every bucket with a higher index in the `-1..9` order is
neither read nor drained in that cycle; a failed `PurgeAnalyticsData` remote
call, by contrast, continues to the next bucket, which is still read. -/
theorem marshal_failure_aborts_cycle :
    (∀ (env : PurgeEnv) (s : Store) (i j : Int),
        PurgeEvent.mfail i ∈ (PurgeCache env s).2 → j ∈ bucketIndices → i < j →
        PurgeEvent.read j ∉ (PurgeCache env s).2 ∧
        storeGet (PurgeCache env s).1 (analyticsKeyName j) =
          storeGet s (analyticsKeyName j)) ∧
    (∀ (env : PurgeEnv) (s : Store) (i : Int)
        (ks : List (Option AnalyticsRecord)) (ok : Bool),
        PurgeEvent.sent i ks ok ∈ (PurgeCache env s).2 → i < 9 →
        PurgeEvent.read (i + 1) ∈ (PurgeCache env s).2) := by
  constructor
  · intro env s i j hmf hj hij
    by_cases hping : env.pingOk
    · simp only [PurgeCache, hping, if_true] at hmf ⊢
      exact purgeBuckets_mfail_truncates env bucketIndices s i j (by decide)
        (fun m hm => bucketKeys_inj m hm j hj) hmf hj hij
    · simp [PurgeCache, hping] at hmf
  · intro env s i ks ok hs hi
    by_cases hping : env.pingOk
    · simp only [PurgeCache, hping, if_true] at hs ⊢
      have him : i ∈ bucketIndices :=
        purgeBuckets_index_mem env bucketIndices s _ hs
      simp only [bucketIndices, List.mem_cons, List.not_mem_nil, or_false] at him
      rcases him with h | h | h | h | h | h | h | h | h | h | h <;> subst h
      · exact purgeBuckets_sent_continues env [] (-1) 0
          [1, 2, 3, 4, 5, 6, 7, 8, 9] s ks ok (by decide) hs
      · exact purgeBuckets_sent_continues env [-1] 0 1
          [2, 3, 4, 5, 6, 7, 8, 9] s ks ok (by decide) hs
      · exact purgeBuckets_sent_continues env [-1, 0] 1 2
          [3, 4, 5, 6, 7, 8, 9] s ks ok (by decide) hs
      · exact purgeBuckets_sent_continues env [-1, 0, 1] 2 3
          [4, 5, 6, 7, 8, 9] s ks ok (by decide) hs
      · exact purgeBuckets_sent_continues env [-1, 0, 1, 2] 3 4
          [5, 6, 7, 8, 9] s ks ok (by decide) hs
      · exact purgeBuckets_sent_continues env [-1, 0, 1, 2, 3] 4 5
          [6, 7, 8, 9] s ks ok (by decide) hs
      · exact purgeBuckets_sent_continues env [-1, 0, 1, 2, 3, 4] 5 6
          [7, 8, 9] s ks ok (by decide) hs
      · exact purgeBuckets_sent_continues env [-1, 0, 1, 2, 3, 4, 5] 6 7
          [8, 9] s ks ok (by decide) hs
      · exact purgeBuckets_sent_continues env [-1, 0, 1, 2, 3, 4, 5, 6] 7 8
          [9] s ks ok (by decide) hs
      · exact purgeBuckets_sent_continues env [-1, 0, 1, 2, 3, 4, 5, 6, 7] 8 9
          [] s ks ok (by decide) hs
      · exact absurd hi (by decide)
    · simp [PurgeCache, hping] at hs

/-- Witness for `marshal_failure_aborts_cycle`: with marshalling failing on
the populated legacy bucket `-1`, bucket `0` is neither read nor drained. -/
theorem marshal_failure_aborts_cycle_witness :
    PurgeEvent.read 0 ∉ (PurgeCache demoEnvNoMarshal demoStore).2 ∧
      storeGet (PurgeCache demoEnvNoMarshal demoStore).1 (analyticsKeyName 0) =
        storeGet demoStore (analyticsKeyName 0) :=
  marshal_failure_aborts_cycle.1 demoEnvNoMarshal demoStore (-1) 0 (by decide)
    (by decide) (by decide)

/-! ## Configuration sync (`gateway/distributed_rate_limiter.go` unit) -/

/-- Generic JSON-ish value, enough for the concrete maps the claims use;
`sanitizeConfig` itself stays polymorphic like Go's `map[string]interface{}`. -/
inductive JVal where
  | str (s : String)
  | num (n : Int)
  | emptyObj
deriving DecidableEq, Repr

/-- Association-list model of a Go `map[string]T` (keys unique). -/
abbrev JMap (α : Type) := List (String × α)

/-- Go `delete(mc, field_name)` on a string-keyed map. -/
def mapDelete {α : Type} (mc : JMap α) (k : String) : JMap α :=
  mc.filter (fun kv => kv.1 != k)

/-- The `sanitzeFields` list of `sanitizeConfig` (source spelling kept). -/
def sanitzeFields : List String :=
  ["secret", "node_secret", "storage", "slave_options", "auth_override"]

/-- Translation of `sanitizeConfig`: delete each sensitive field in order. -/
def sanitizeConfig {α : Type} (mc : JMap α) : JMap α :=
  sanitzeFields.foldl mapDelete mc

/-- Go `ConfigPayload`, restricted to its addressing fields; the pushed
`Configuration` itself is opaque and appears only through its serialization
in `GwEnv.newConfigSerialized`. -/
structure ConfigPayload where
  ForHostname : String
  ForNodeID : String
deriving DecidableEq, Repr

/-- Go `gw.hostDetails`: this node's hostname and process id. -/
structure HostDetails where
  Hostname : String
  PID : Int
deriving DecidableEq, Repr

/-- The gateway and its external collaborators as seen by
`handleNewConfiguration`: node identity, the remote-config policy, and the
outcomes of the external JSON and file operations. -/
structure GwEnv where
  hostDetails : HostDetails
  /-- `gw.GetNodeID()` -/
  nodeID : String
  /-- `gw.GetConfig().AllowRemoteConfig` -/
  AllowRemoteConfig : Bool
  /-- result of `json.Unmarshal` on the pushed payload (`none` = decode error) -/
  decodedPayload : Option ConfigPayload
  /-- `json.MarshalIndent(gw.GetConfig(), ...)` inside `backupConfiguration`
  (`none` = marshal error) -/
  currentConfigSerialized : Option String
  /-- `json.MarshalIndent(payload.Configuration, ...)` inside
  `writeNewConfiguration` (`none` = marshal error) -/
  newConfigSerialized : Option String
  /-- whether `ioutil.WriteFile` of the timestamped backup file succeeds -/
  backupWriteOk : Bool
  /-- whether `ioutil.WriteFile` of `confPaths[0]` succeeds -/
  primaryWriteOk : Bool
  /-- whether `syscall.Kill(myPID, syscall.SIGUSR2)` succeeds -/
  killOk : Bool

/-- On-disk state touched by the config-sync applier: the primary
configuration file `confPaths[0]` and the written backup files. -/
structure FS where
  primary : String
  backups : List String
deriving DecidableEq, Repr

/-- Translation of `backupConfiguration`: marshal the current in-memory
configuration and write it to the timestamped `.tyk.conf` backup file;
`none` is an error (marshal or write failed), leaving the filesystem model
unchanged. -/
def backupConfiguration (env : GwEnv) (fs : FS) : Option FS :=
  match env.currentConfigSerialized with
  | none => none
  | some oldConfig =>
    if env.backupWriteOk then some { fs with backups := fs.backups ++ [oldConfig] }
    else none

/-- Translation of `writeNewConfiguration`: marshal the pushed configuration
and overwrite the primary configuration file. -/
def writeNewConfiguration (env : GwEnv) (fs : FS) : Option FS :=
  match env.newConfigSerialized with
  | none => none
  | some newConfig =>
    if env.primaryWriteOk then some { fs with primary := newConfig }
    else none

/-- Externally visible actions of `handleNewConfiguration`, in program
order. -/
inductive ConfigAction where
  | backupWritten
  | primaryWritten
  | reloadSignal (pid : Int)
deriving DecidableEq, Repr

/-- Where `handleNewConfiguration` stopped. -/
inductive ConfigOutcome where
  | decodeFailed
  | addressMismatch
  | remoteConfigDisabled
  | backupFailed
  | writeFailed
  | noPid
  | reloaded (killOk : Bool)
deriving DecidableEq, Repr

/-- Translation of `handleNewConfiguration`: decode the payload (the merge
of the on-disk configuration under the unmarshal is folded into
`decodedPayload`), check addressing (`ForHostname` and `ForNodeID` must both
differ to ignore), check `AllowRemoteConfig`, back up, overwrite, and send
the reload signal unless the recorded PID is `0`. -/
def handleNewConfiguration (env : GwEnv) (fs : FS) :
    FS × List ConfigAction × ConfigOutcome :=
  match env.decodedPayload with
  | none => (fs, [], .decodeFailed)
  | some configPayload =>
    if configPayload.ForHostname ≠ env.hostDetails.Hostname ∧
        configPayload.ForNodeID ≠ env.nodeID then
      (fs, [], .addressMismatch)
    else if !env.AllowRemoteConfig then
      (fs, [], .remoteConfigDisabled)
    else
      match backupConfiguration env fs with
      | none => (fs, [], .backupFailed)
      | some fs1 =>
        match writeNewConfiguration env fs1 with
        | none => (fs1, [.backupWritten], .writeFailed)
        | some fs2 =>
          if env.hostDetails.PID = 0 then
            (fs2, [.backupWritten, .primaryWritten], .noPid)
          else
            (fs2,
              [.backupWritten, .primaryWritten, .reloadSignal env.hostDetails.PID],
              .reloaded env.killOk)

/-- Go `GetConfigPayload` (a configuration pull request). -/
structure GetConfigPayload where
  FromHostname : String
  FromNodeID : String
deriving DecidableEq, Repr

/-- Go `ReturnConfigPayload`, without the timestamp. -/
structure ReturnConfigPayload where
  FromHostname : String
  FromNodeID : String
  Configuration : JMap JVal
deriving DecidableEq, Repr

/-- Where `handleSendMiniConfig` stopped, carrying the emitted response when
one was sent. -/
inductive MiniOutcome where
  | decodeFailed
  | addressMismatch
  | readFailed
  | marshalFailed
  | responded (r : ReturnConfigPayload)
deriving DecidableEq, Repr

/-- The gateway and external collaborators as seen by
`handleSendMiniConfig`. -/
structure MiniEnv where
  hostname : String
  nodeID : String
  /-- result of `json.Unmarshal` on the request payload -/
  decodedPayload : Option GetConfigPayload
  /-- result of `os.Open` plus JSON-decode of the on-disk configuration
  (`getExistingConfig`'s input; `none` = I/O or decode error) -/
  fileConfig : Option (JMap JVal)
  /-- whether `json.Marshal` of the response succeeds -/
  marshalOk : Bool

/-- Translation of `getExistingConfig`: read and decode the on-disk
configuration, then sanitize it. -/
def getExistingConfig (env : MiniEnv) : Option (JMap JVal) :=
  match env.fileConfig with
  | none => none
  | some microConfig => some (sanitizeConfig microConfig)

/-- Translation of `handleSendMiniConfig`: decode the request, check
addressing (both `FromHostname` and `FromNodeID` must differ to ignore),
read the sanitized configuration and emit the response. -/
def handleSendMiniConfig (env : MiniEnv) : MiniOutcome :=
  match env.decodedPayload with
  | none => .decodeFailed
  | some configPayload =>
    if configPayload.FromHostname ≠ env.hostname ∧
        configPayload.FromNodeID ≠ env.nodeID then
      .addressMismatch
    else
      match getExistingConfig env with
      | none => .readFailed
      | some config =>
        if env.marshalOk then
          .responded
            { FromHostname := env.hostname
              FromNodeID := env.nodeID
              Configuration := config }
        else .marshalFailed

/-! ## Load reporter (`NotifyCurrentServerStatus`) -/

/-- Go `drl.Server`, the load report broadcast to peers. -/
structure DrlServer where
  HostName : String
  ID : String
  LoadPerSec : Int
  TagHash : String
deriving DecidableEq, Repr

/-- Translation of `getTagHash`: concatenation of the configured tags in
order. -/
def getTagHash (tags : List String) : String :=
  tags.foldl (fun th tag => th ++ tag) ""

/-- The gateway and collaborators as seen by `NotifyCurrentServerStatus`. -/
structure DrlEnv where
  hostname : String
  nodeID : String
  /-- whether `gw.DRLManager` is non-nil -/
  hasDRLManager : Bool
  /-- `gw.DRLManager.Ready()` -/
  drlReady : Bool
  /-- `GlobalRate.Rate()` -/
  rate : Int
  /-- `gw.GetConfig().DBAppConfOptions.Tags` -/
  tags : List String
  /-- whether `json.Marshal(server)` succeeds -/
  marshalOk : Bool

/-- Translation of `NotifyCurrentServerStatus`: the `drl.Server` report
handed to `MainNotifier.Notify`, or `none` when nothing is emitted (manager
missing or not ready, or marshal failure). -/
def NotifyCurrentServerStatus (env : DrlEnv) : Option DrlServer :=
  if !env.hasDRLManager || !env.drlReady then none
  else
    let rate := if env.rate = 0 then 1 else env.rate
    if env.marshalOk then
      some
        { HostName := env.hostname
          ID := env.nodeID
          LoadPerSec := rate
          TagHash := getTagHash env.tags }
    else none

/-! ## Stub-handler registration (`Purger.Connect`) -/

/-- Package-level registration state of the `rpc` package: the `addedFuncs`
guard map (`map[string]bool`, modelled as its lookup function) and the log
of `dispatcher.AddFunc` calls actually made. -/
structure RpcState where
  addedFuncs : String → Bool
  dispatcherFuncs : List String

/-- Modelled from the spec: the package-level `addedFuncs` map is declared
outside the excerpted source; a Go package-level map starts empty at process
start, matching the spec's "at most once per process". -/
def initialRpcState : RpcState := ⟨fun _ => false, []⟩

/-- Translation of `Purger.Connect`: register the `Ping` and
`PurgeAnalyticsData` stub handlers with the dispatcher unless `addedFuncs`
already records them, then mark them in `addedFuncs`. -/
def Connect (st : RpcState) : RpcState :=
  let st1 :=
    if st.addedFuncs "Ping" then st
    else
      ⟨fun k => if k = "Ping" then true else st.addedFuncs k,
        st.dispatcherFuncs ++ ["Ping"]⟩
  if st1.addedFuncs "PurgeAnalyticsData" then st1
  else
    ⟨fun k => if k = "PurgeAnalyticsData" then true else st1.addedFuncs k,
      st1.dispatcherFuncs ++ ["PurgeAnalyticsData"]⟩

/-- Iterated calls of `Connect` from process start. -/
def iterateConnect : Nat → RpcState
  | 0 => initialRpcState
  | n + 1 => Connect (iterateConnect n)

/-! Concrete demonstration inputs for the gateway handlers. -/

/-- Demonstration gateway environment: payload addressed to hostname `h1`
with empty target node id, remote config allowed, all externals succeed,
recorded PID `0`. -/
def demoGwEnv : GwEnv :=
  { hostDetails := { Hostname := "h1", PID := 0 }
    nodeID := "n1"
    AllowRemoteConfig := true
    decodedPayload := some { ForHostname := "h1", ForNodeID := "" }
    currentConfigSerialized := some "old-config"
    newConfigSerialized := some "new-config"
    backupWriteOk := true
    primaryWriteOk := true
    killOk := true }

/-- Demonstration filesystem state. -/
def demoFS : FS := { primary := "prior-config", backups := [] }

/-- Demonstration environment whose backup write fails. -/
def demoGwEnvBackupFail : GwEnv := { demoGwEnv with backupWriteOk := false }

/-- Demonstration environment of an unregistered node (empty node id) whose
hostname differs from the payload's target hostname. -/
def demoGwEnvEmptyId : GwEnv :=
  { demoGwEnv with
    hostDetails := { Hostname := "h2", PID := 7 }
    nodeID := "" }

/-- Demonstration pull-request environment for the unregistered node. -/
def demoMiniEnv : MiniEnv :=
  { hostname := "h2"
    nodeID := ""
    decodedPayload := some { FromHostname := "h1", FromNodeID := "" }
    fileConfig := some [("secret", JVal.str "x"), ("port", JVal.num 8080)]
    marshalOk := true }

/-- Matching on either addressing field means `handleNewConfiguration` does
not stop at the addressing check. -/
theorem not_addressMismatch_of_match (env : GwEnv) (fs : FS) (p : ConfigPayload)
    (hp : env.decodedPayload = some p)
    (hor : p.ForHostname = env.hostDetails.Hostname ∨ p.ForNodeID = env.nodeID) :
    (handleNewConfiguration env fs).2.2 ≠ ConfigOutcome.addressMismatch := by
  have hmm : ¬(p.ForHostname ≠ env.hostDetails.Hostname ∧ p.ForNodeID ≠ env.nodeID) := by
    tauto
  simp only [handleNewConfiguration, hp]
  rw [if_neg hmm]
  split
  · simp
  · split
    · simp
    · split
      · simp
      · split <;> simp

/-- C2: a decoded `ConfigPushPayload` proceeds past the addressing check of
`handleNewConfiguration` exactly when its `ForHostname` equals this node's
hostname or its `ForNodeID` equals this node's id; it is ignored exactly
when both differ. -/
theorem config_addressing_check (env : GwEnv) (fs : FS) (p : ConfigPayload)
    (hp : env.decodedPayload = some p) :
    (handleNewConfiguration env fs).2.2 ≠ ConfigOutcome.addressMismatch ↔
      (p.ForHostname = env.hostDetails.Hostname ∨ p.ForNodeID = env.nodeID) := by
  constructor
  · intro hne
    by_contra hor
    push_neg at hor
    have heq : (handleNewConfiguration env fs).2.2 = ConfigOutcome.addressMismatch := by
      simp only [handleNewConfiguration, hp]
      rw [if_pos ⟨hor.1, hor.2⟩]
    exact hne heq
  · exact not_addressMismatch_of_match env fs p hp

/-- Witness for `config_addressing_check` at the demonstration input, whose
payload matches by hostname alone. -/
theorem config_addressing_check_witness :
    ((handleNewConfiguration demoGwEnv demoFS).2.2 ≠ ConfigOutcome.addressMismatch ↔
      ("h1" = demoGwEnv.hostDetails.Hostname ∨ "" = demoGwEnv.nodeID)) :=
  config_addressing_check demoGwEnv demoFS { ForHostname := "h1", ForNodeID := "" } rfl

/-- C3: `handleNewConfiguration` writes the backup before any overwrite of
the primary configuration file (whenever `primaryWritten` occurs, the first
action is `backupWritten`), and when `backupConfiguration` errors the
primary file's prior contents are unchanged and never overwritten. -/
theorem backup_before_overwrite (env : GwEnv) (fs : FS) :
    (ConfigAction.primaryWritten ∈ (handleNewConfiguration env fs).2.1 →
      ((handleNewConfiguration env fs).2.1).head? = some ConfigAction.backupWritten) ∧
    (backupConfiguration env fs = none →
      (handleNewConfiguration env fs).1.primary = fs.primary ∧
      ConfigAction.primaryWritten ∉ (handleNewConfiguration env fs).2.1) := by
  cases hp : env.decodedPayload with
  | none => simp [handleNewConfiguration, hp]
  | some p =>
    simp only [handleNewConfiguration, hp]
    by_cases hmm : p.ForHostname ≠ env.hostDetails.Hostname ∧ p.ForNodeID ≠ env.nodeID
    · simp [hmm]
    · rw [if_neg hmm]
      by_cases hrc : env.AllowRemoteConfig
      · simp only [hrc, Bool.not_true, Bool.false_eq_true, if_false]
        cases hb : backupConfiguration env fs with
        | none => simp
        | some fs1 =>
          cases hw : writeNewConfiguration env fs1 with
          | none => simp [hw]
          | some fs2 =>
            by_cases hpid : env.hostDetails.PID = 0 <;> simp [hw, hpid]
      · simp [hrc]

/-- Witness for `backup_before_overwrite`: with the backup write failing,
the primary configuration file keeps its prior contents. -/
theorem backup_before_overwrite_witness :
    (handleNewConfiguration demoGwEnvBackupFail demoFS).1.primary = demoFS.primary ∧
      ConfigAction.primaryWritten ∉
        (handleNewConfiguration demoGwEnvBackupFail demoFS).2.1 :=
  (backup_before_overwrite demoGwEnvBackupFail demoFS).2 (by decide)

/-- C6: when the recorded process id is `0`, `handleNewConfiguration` sends
no reload signal to any process. -/
theorem no_reload_when_pid_zero (env : GwEnv) (fs : FS) (pid : Int)
    (h : env.hostDetails.PID = 0) :
    ConfigAction.reloadSignal pid ∉ (handleNewConfiguration env fs).2.1 := by
  cases hp : env.decodedPayload with
  | none => simp [handleNewConfiguration, hp]
  | some p =>
    simp only [handleNewConfiguration, hp]
    by_cases hmm : p.ForHostname ≠ env.hostDetails.Hostname ∧ p.ForNodeID ≠ env.nodeID
    · simp [hmm]
    · rw [if_neg hmm]
      by_cases hrc : env.AllowRemoteConfig
      · simp only [hrc, Bool.not_true, Bool.false_eq_true, if_false]
        cases hb : backupConfiguration env fs with
        | none => simp
        | some fs1 =>
          cases hw : writeNewConfiguration env fs1 with
          | none => simp [hw]
          | some fs2 => simp [hw, h]
      · simp [hrc]

/-- Witness for `no_reload_when_pid_zero` at the demonstration environment,
whose recorded PID is `0`. -/
theorem no_reload_when_pid_zero_witness :
    ConfigAction.reloadSignal 42 ∉ (handleNewConfiguration demoGwEnv demoFS).2.1 :=
  no_reload_when_pid_zero demoGwEnv demoFS 42 rfl

/-- Folding key deletions over a map equals filtering out the deleted
keys. -/
theorem foldl_mapDelete_eq_filter {α : Type} (ks : List String) (mc : JMap α) :
    ks.foldl mapDelete mc = mc.filter (fun kv => !ks.contains kv.1) := by
  induction ks generalizing mc with
  | nil => simp
  | cons k ks ih =>
    rw [List.foldl_cons, ih, mapDelete, List.filter_filter]
    congr 1
    funext kv
    by_cases hk : kv.1 = k <;> simp [hk, List.contains_cons]

/-- C5: `sanitizeConfig` removes exactly the top-level keys `secret`,
`node_secret`, `storage`, `slave_options` and `auth_override`, leaving every
other key-value pair unchanged; on the map
`{"secret": "x", "storage": {}, "port": 8080}` it yields exactly
`{"port": 8080}`. -/
theorem sanitizeConfig_removes_exactly :
    (∀ (α : Type) (mc : JMap α),
        sanitizeConfig mc = mc.filter (fun kv => !sanitzeFields.contains kv.1)) ∧
    sanitizeConfig
        [("secret", JVal.str "x"), ("storage", JVal.emptyObj),
          ("port", JVal.num 8080)] =
      [("port", JVal.num 8080)] :=
  ⟨fun _ mc => foldl_mapDelete_eq_filter sanitzeFields mc, by decide⟩

/-- C7: every emitted load report has `LoadPerSec = 1` when the measured
rate is `0` and `LoadPerSec` equal to the measured rate when it is positive,
and a report is emitted only when the DRL manager exists and is ready. -/
theorem load_report_floor (env : DrlEnv) (s : DrlServer)
    (h : NotifyCurrentServerStatus env = some s) :
    (env.rate = 0 → s.LoadPerSec = 1) ∧
      (0 < env.rate → s.LoadPerSec = env.rate) ∧
      env.hasDRLManager = true ∧ env.drlReady = true := by
  unfold NotifyCurrentServerStatus at h
  by_cases h1 : env.hasDRLManager
  · by_cases h2 : env.drlReady
    · by_cases h3 : env.marshalOk
      · simp only [h1, h2, h3, Bool.not_true, Bool.or_self, Bool.false_eq_true,
          if_false, if_true, Option.some.injEq] at h
        subst h
        refine ⟨fun hr => by simp [hr], fun hr => ?_, h1, h2⟩
        simp only
        rw [if_neg (by omega)]
      · simp [h1, h2, h3] at h
    · simp [h1, h2] at h
  · simp [h1] at h

/-- Demonstration DRL environment with measured rate `0`. -/
def demoDrlEnv : DrlEnv :=
  { hostname := "h1"
    nodeID := "n1"
    hasDRLManager := true
    drlReady := true
    rate := 0
    tags := ["a", "b"]
    marshalOk := true }

/-- The report emitted from `demoDrlEnv`. -/
def demoDrlServer : DrlServer :=
  { HostName := "h1", ID := "n1", LoadPerSec := 1, TagHash := "ab" }

/-- Witness for `load_report_floor`: the report of a node measuring rate `0`
advertises load `1`. -/
theorem load_report_floor_witness :
    (demoDrlEnv.rate = 0 → demoDrlServer.LoadPerSec = 1) ∧
      (0 < demoDrlEnv.rate → demoDrlServer.LoadPerSec = demoDrlEnv.rate) ∧
      demoDrlEnv.hasDRLManager = true ∧ demoDrlEnv.drlReady = true :=
  load_report_floor demoDrlEnv demoDrlServer (by decide)

/-- C9: a node whose own id is still empty accepts any payload whose node-id
field is empty, in both `handleNewConfiguration` (`ForNodeID`) and
`handleSendMiniConfig` (`FromNodeID`), even when the hostnames differ. -/
theorem empty_node_id_passes_check (envG : GwEnv) (fsG : FS) (p : ConfigPayload)
    (hp : envG.decodedPayload = some p) (hpn : p.ForNodeID = "")
    (hn : envG.nodeID = "") (envM : MiniEnv) (q : GetConfigPayload)
    (hq : envM.decodedPayload = some q) (hqn : q.FromNodeID = "")
    (hm : envM.nodeID = "") :
    (handleNewConfiguration envG fsG).2.2 ≠ ConfigOutcome.addressMismatch ∧
      handleSendMiniConfig envM ≠ MiniOutcome.addressMismatch := by
  constructor
  · exact not_addressMismatch_of_match envG fsG p hp (Or.inr (by rw [hpn, hn]))
  · simp only [handleSendMiniConfig, hq]
    rw [if_neg (by rw [hqn, hm]; simp)]
    split
    · simp
    · split <;> simp

/-- Witness for `empty_node_id_passes_check`: an unregistered node (empty
id) whose hostname differs from the payload's target still passes both
addressing checks. -/
theorem empty_node_id_passes_check_witness :
    (handleNewConfiguration demoGwEnvEmptyId demoFS).2.2 ≠
        ConfigOutcome.addressMismatch ∧
      handleSendMiniConfig demoMiniEnv ≠ MiniOutcome.addressMismatch :=
  empty_node_id_passes_check demoGwEnvEmptyId demoFS
    { ForHostname := "h1", ForNodeID := "" } rfl rfl rfl demoMiniEnv
    { FromHostname := "h1", FromNodeID := "" } rfl rfl rfl

/-- Registration invariant: a stub handler is registered with the
dispatcher exactly once when its `addedFuncs` guard is set, and never
otherwise. -/
def regInvariant (st : RpcState) : Prop :=
  st.dispatcherFuncs.count "Ping" =
      (if st.addedFuncs "Ping" then 1 else 0) ∧
    st.dispatcherFuncs.count "PurgeAnalyticsData" =
      (if st.addedFuncs "PurgeAnalyticsData" then 1 else 0)

/-- The registration invariant is preserved by `Connect`. -/
theorem connect_preserves_regInvariant (st : RpcState) (h : regInvariant st) :
    regInvariant (Connect st) := by
  obtain ⟨h1, h2⟩ := h
  unfold Connect regInvariant
  by_cases hping : st.addedFuncs "Ping" = true <;>
    by_cases hpad : st.addedFuncs "PurgeAnalyticsData" = true <;>
      simp [hping, hpad, List.count_append, h1, h2, List.count_cons,
        List.count_nil]

/-- C8: however many times `Connect` is called in one process, the `Ping`
and `PurgeAnalyticsData` stub handlers are each registered with the
dispatcher at most once. -/
theorem connect_registers_at_most_once (n : Nat) :
    (iterateConnect n).dispatcherFuncs.count "Ping" ≤ 1 ∧
      (iterateConnect n).dispatcherFuncs.count "PurgeAnalyticsData" ≤ 1 := by
  have hinv : regInvariant (iterateConnect n) := by
    induction n with
    | zero => exact ⟨rfl, rfl⟩
    | succ n ih => exact connect_preserves_regInvariant _ ih
  obtain ⟨h1, h2⟩ := hinv
  rw [h1, h2]
  constructor <;> split <;> omega

end Tyk
